import Mathlib

/-!
Shallow embedding of the OpenLog core (syslog ingestion and alerting service)
written in TypeScript. Sources embedded here:
  * `src/config/config.ts` — `ConfigManager.checkThreshold`,
    `ConfigManager.parseTimeWindow`, the `AlertRuleSchema` defaults;
  * `src/alerting/webhook.ts` — `WebhookNotifier.getSeverity`,
    `WebhookNotifier.buildMessage` and the pure payload construction
    of `WebhookNotifier.sendAlert`;
  * `src/storage/database.ts` — `LogDatabase.runAlertQuery`;
  * `src/alerting/alert-engine.ts` — `AlertEngine.isInCooldown`,
    `AlertEngine.checkRule` and the scheduler loop of `AlertEngine.start`
    / `AlertEngine.runChecks`;
  * `src/server/syslog-parser.ts` — `SyslogParser.parse` and its helpers;
  * `src/server/syslog-server.ts` — the per-connection frame-decoding loop
    of the `data` socket handler.

JavaScript numbers are modelled as `ℚ` where only comparisons and exact
division on integral data occur, and as `Option Int` where a value may be
`NaN` (`none` plays the role of `NaN`).  Times (`Date` values) are modelled
as natural-number epoch milliseconds.  Fallible operations return `Option`.
-/

/-! ### JavaScript primitive semantics -/

/-- The ASCII part of JavaScript's whitespace class (`\s`, and the set used
by `String.prototype.trim`): space, tab, LF, VT, FF, CR.  (JavaScript also
includes rare Unicode space characters, which never occur in the inputs
considered here.) -/
def isSpaceJS (c : Char) : Bool :=
  c = ' ' ∨ c = '\t' ∨ c = '\n' ∨ c = '\x0b' ∨ c = '\x0c' ∨ c = '\r'

/-- JavaScript `\d`: the ASCII digits. -/
def isDigitJS (c : Char) : Bool :=
  '0' ≤ c ∧ c ≤ '9'

/-- Numeric value of a list of ASCII digits (most significant first). -/
def digitsToNat (ds : List Char) : Nat :=
  ds.foldl (fun acc c => acc * 10 + (c.toNat - '0'.toNat)) 0

/-- `String.prototype.trim` on a character list: strip leading and trailing
JavaScript whitespace. -/
def trimListJS (s : List Char) : List Char :=
  ((s.dropWhile isSpaceJS).reverse.dropWhile isSpaceJS).reverse

/-- `String.prototype.trim`. -/
def trimJS (s : String) : String :=
  ⟨trimListJS s.data⟩

/-- `parseInt(s, 10)`: skip leading whitespace, accept an optional sign, then
read the longest run of decimal digits, ignoring anything after it.  Returns
`none` when no digits are found (JavaScript's `NaN`). -/
def parseIntJS (s : List Char) : Option Int :=
  let t := s.dropWhile isSpaceJS
  let core : List Char → Option Nat := fun u =>
    let ds := u.takeWhile isDigitJS
    if ds = [] then none else some (digitsToNat ds)
  match t with
  | '-' :: rest => (core rest).map (fun n => -(n : Int))
  | '+' :: rest => (core rest).map (fun n => (n : Int))
  | _ => (core t).map (fun n => (n : Int))

/-- `String.prototype.indexOf` for a single character: the index of the first
occurrence, or `-1` when absent. -/
def indexOfChar (s : List Char) (c : Char) : Int :=
  match s.findIdx? (fun d => d = c) with
  | some i => (i : Int)
  | none => -1

/-! ### `src/config/config.ts` -/

/-- `ConfigManager.checkThreshold` (config.ts, lines 191–206): the `switch`
on the five comparison operators, with a `default: return false` arm.
JavaScript numbers are modelled as `ℚ`. -/
def ConfigManager.checkThreshold (value threshold : ℚ) (operator : String) : Bool :=
  if operator = "gt" then value > threshold
  else if operator = "gte" then value ≥ threshold
  else if operator = "lt" then value < threshold
  else if operator = "lte" then value ≤ threshold
  else if operator = "eq" then value = threshold
  else false

/-- `ConfigManager.parseTimeWindow` (config.ts, lines 170–189): match
`^(\d+)([mhd])$` and scale to milliseconds; `none` models the thrown
`Error` on a format mismatch. -/
def ConfigManager.parseTimeWindow (window : String) : Option Nat :=
  match window.data.reverse with
  | u :: revDigits =>
    let ds := revDigits.reverse
    if ds ≠ [] ∧ ds.all isDigitJS then
      let value := digitsToNat ds
      if u = 'm' then some (value * 60 * 1000)
      else if u = 'h' then some (value * 60 * 60 * 1000)
      else if u = 'd' then some (value * 24 * 60 * 60 * 1000)
      else none
    else none
  | [] => none

/-- An alert rule after zod validation (`AlertRuleSchema`, config.ts lines
5–25).  `threshold` is a JavaScript number (`ℚ`); all defaults have been
applied, so `operator` and `cooldown` are plain strings. -/
structure AlertRule where
  name : String
  enabled : Bool
  window : String
  query : String
  threshold : ℚ
  operator : String
  webhook : String
  headers : List (String × String)
  cooldown : String
deriving DecidableEq, Repr

/-- An alert rule as written in the configuration file, before zod applies
defaults: `enabled`, `operator` and `cooldown` may be omitted. -/
structure RawAlertRule where
  name : String
  enabled : Option Bool
  window : String
  query : String
  threshold : ℚ
  operator : Option String
  webhook : String
  headers : List (String × String)
  cooldown : Option String
deriving DecidableEq, Repr

/-- The validation performed by `AlertRuleSchema` (config.ts, lines 5–25):
`window` must match `^\d+[mhd]$`, `threshold` must be positive, `operator`
(when present) must be one of the five enum values, `cooldown` (when
present) must match `^\d+[mhd]$`.  Defaults: `enabled := false`,
`operator := "gt"`, `cooldown := "5m"`.  (`webhook` is additionally checked
to be a URL by zod; that check is orthogonal to every claim and not
modelled.) -/
def alertRuleSchemaParse (r : RawAlertRule) : Option AlertRule :=
  if (ConfigManager.parseTimeWindow r.window).isSome ∧
      0 < r.threshold ∧
      (match r.operator with
       | none => true
       | some op => decide (op ∈ ["gt", "gte", "lt", "lte", "eq"])) = true ∧
      (match r.cooldown with
       | none => true
       | some cd => (ConfigManager.parseTimeWindow cd).isSome) = true then
    some { name := r.name
           enabled := r.enabled.getD false
           window := r.window
           query := r.query
           threshold := r.threshold
           operator := r.operator.getD "gt"
           webhook := r.webhook
           headers := r.headers
           cooldown := r.cooldown.getD "5m" }
  else none

/-! ### `src/alerting/webhook.ts` -/

/-- `WebhookNotifier.getSeverity` (webhook.ts, lines 86–99):
`ratio = actualValue / threshold`; `ratio ≥ 2 → "critical"`,
`ratio ≥ 1.5 → "warning"`, otherwise `"info"`. -/
def WebhookNotifier.getSeverity (actualValue threshold : ℚ) : String :=
  let ratio := actualValue / threshold
  if ratio ≥ 2 then "critical"
  else if ratio ≥ 1.5 then "warning"
  else "info"

/-- `WebhookNotifier.buildMessage` (webhook.ts, lines 101–113). -/
def WebhookNotifier.buildMessage (rule : AlertRule) (actualValue : ℚ) : String :=
  let operator := if rule.operator = "" then "gt" else rule.operator
  let operatorText :=
    if operator = "gt" then "greater than"
    else if operator = "gte" then "greater than or equal to"
    else if operator = "lt" then "less than"
    else if operator = "lte" then "less than or equal to"
    else if operator = "eq" then "equal to"
    else operator
  "Alert \"" ++ rule.name ++ "\" triggered: Count (" ++ toString actualValue ++
    ") is " ++ operatorText ++ " threshold (" ++ toString rule.threshold ++
    ") in the last " ++ rule.window

/-- The outbound webhook payload (webhook.ts, lines 3–20), restricted to its
pure data; ISO-8601 date strings are modelled as the epoch-millisecond
values they render. -/
structure WebhookPayload where
  alertName : String
  severity : String
  windowStart : Nat
  windowEnd : Nat
  duration : String
  query : String
  threshold : ℚ
  operator : String
  actualValue : ℚ
  message : String
deriving DecidableEq, Repr

/-- The payload constructed by `WebhookNotifier.sendAlert` (webhook.ts,
lines 30–47) before the HTTP POST is issued. -/
def WebhookNotifier.buildPayload (rule : AlertRule) (actualValue : ℚ)
    (windowStart windowEnd : Nat) : WebhookPayload :=
  { alertName := rule.name
    severity := WebhookNotifier.getSeverity actualValue rule.threshold
    windowStart := windowStart
    windowEnd := windowEnd
    duration := rule.window
    query := rule.query
    threshold := rule.threshold
    operator := if rule.operator = "" then "gt" else rule.operator
    actualValue := actualValue
    message := WebhookNotifier.buildMessage rule actualValue }

/-! ### `src/storage/database.ts` -/

/-- A value in a SQLite result row: a JavaScript number or anything else. -/
inductive SqlValue where
  | num (n : Int)
  | other
deriving DecidableEq, Repr

/-- The behaviour of the external SQLite engine on one prepared query with
two bound time parameters: `none` models a thrown error (e.g. a malformed
predicate), `some none` models `stmt.get` returning no row, and
`some (some vals)` models a row whose `Object.values` are `vals`. -/
def SqlExec : Type := String → Nat → Nat → Option (Option (List SqlValue))

/-- `LogDatabase.runAlertQuery` (database.ts, lines 181–204): build the full
`SELECT COUNT(*)` query around the rule's predicate, execute it, return the
first value of the row if it is a number, and `0` on a missing row, a
non-numeric value, or a caught execution error. -/
def LogDatabase.runAlertQuery (exec : SqlExec) (predicate : String)
    (startTime endTime : Nat) : Int :=
  let fullQuery :=
    "SELECT COUNT(*) as count FROM logs WHERE timestamp >= $startTime AND timestamp <= $endTime AND (" ++
      predicate ++ ")"
  match exec fullQuery startTime endTime with
  | none => 0
  | some none => 0
  | some (some vals) =>
    match vals.head? with
    | some (SqlValue.num n) => n
    | _ => 0

/-! ### `src/alerting/alert-engine.ts` — evaluator state -/

/-- An entry of the `alert_history` table as written by
`LogDatabase.insertAlertHistory` from `AlertEngine.checkRule`
(alert-engine.ts, lines 110–115). -/
structure AlertFireEvent where
  alertName : String
  count : Int
  windowStart : Nat
  windowEnd : Nat
deriving DecidableEq, Repr

/-- Replace the binding for `k` in an association list, or append it —
`Map.prototype.set`, and assignment to a property of a plain object (both
keep insertion order and overwrite in place). -/
def upsertAssoc {α : Type} (m : List (String × α)) (k : String) (v : α) :
    List (String × α) :=
  match m with
  | [] => [(k, v)]
  | (k0, v0) :: rest =>
    if k0 = k then (k, v) :: rest else (k0, v0) :: upsertAssoc rest k v

/-- Look up `k` in an association list — `Map.prototype.get`. -/
def getAssoc (m : List (String × Nat)) (k : String) : Option Nat :=
  match m with
  | [] => none
  | (k0, v0) :: rest => if k0 = k then some v0 else getAssoc rest k

/-- The mutable state of one `AlertEngine` touched by `checkRule`:
the cooldown tracker `lastAlertTimes` and the external `alert_history`
sink. -/
structure EngineState where
  lastAlertTimes : List (String × Nat)
  alertHistory : List AlertFireEvent
deriving DecidableEq, Repr

/-- `AlertEngine.isInCooldown` (alert-engine.ts, lines 120–132):
`none` models the exception propagated from `parseTimeWindow` on an
invalid cooldown string (`rule.cooldown || "5m"` applies the `||`
fallback for an empty string). -/
def AlertEngine.isInCooldown (rule : AlertRule) (st : EngineState)
    (now : Nat) : Option Bool :=
  match getAssoc st.lastAlertTimes rule.name with
  | none => some false
  | some lastAlert =>
    match ConfigManager.parseTimeWindow
        (if rule.cooldown = "" then "5m" else rule.cooldown) with
    | none => none
    | some cooldownMs => some (decide (now < lastAlert + cooldownMs))

/-- The threshold decision made inside `AlertEngine.checkRule`
(alert-engine.ts, lines 88–92): `rule.operator || "gt"`. -/
def AlertEngine.ruleFires (rule : AlertRule) (count : Int) : Bool :=
  ConfigManager.checkThreshold (count : ℚ) rule.threshold
    (if rule.operator = "" then "gt" else rule.operator)

/-- The observable outcome of one `AlertEngine.checkRule` call: the engine
state afterwards, whether a log-store query was issued, and whether a
webhook dispatch was attempted. -/
structure CheckOutcome where
  state : EngineState
  queried : Bool
  dispatched : Bool
deriving DecidableEq, Repr

/-- `AlertEngine.checkRule` (alert-engine.ts, lines 77–118).  External
effects are parameters: `exec` is the SQLite engine behaviour, `dispatchOk`
the result reported by `WebhookNotifier.sendAlert`, `now` the evaluation
time (`new Date()` at window computation) and `fireTime` the time of the
`new Date()` taken when recording a successful fire.  `none` models an
exception escaping `checkRule` (caught per-rule by `runChecks`). -/
def AlertEngine.checkRule (exec : SqlExec) (rule : AlertRule)
    (st : EngineState) (now : Nat) (dispatchOk : Bool) (fireTime : Nat) :
    Option CheckOutcome :=
  match AlertEngine.isInCooldown rule st now with
  | none => none
  | some true => some ⟨st, false, false⟩
  | some false =>
    match ConfigManager.parseTimeWindow rule.window with
    | none => none
    | some windowMs =>
      let endTime := now
      let startTime := now - windowMs
      let count := LogDatabase.runAlertQuery exec rule.query startTime endTime
      let shouldAlert := AlertEngine.ruleFires rule count
      if shouldAlert then
        if dispatchOk then
          some ⟨{ lastAlertTimes := upsertAssoc st.lastAlertTimes rule.name fireTime
                  alertHistory := st.alertHistory ++
                    [⟨rule.name, count, startTime, endTime⟩] }, true, true⟩
        else
          some ⟨st, true, true⟩
      else
        some ⟨st, true, false⟩

/-! ### `src/alerting/alert-engine.ts` — scheduler state machine

`AlertEngine.start` installs a timer whose callback runs
`if (!this.isRunning) this.runChecks()` (lines 29–35); `runChecks`
(lines 50–75) sets `isRunning := true`, evaluates the enabled rules
sequentially (each `await this.checkRule(rule)` wrapped in a per-rule
`try/catch`), and resets `isRunning := false` in a `finally` block.
The interleaving is modelled by two events: a timer tick, and the
completion of one step of the running batch (either finishing one rule's
evaluation or executing the `finally` block when no rules remain). -/

structure SchedState where
  isRunning : Bool
  queue : List AlertRule
  evaluated : List String
deriving DecidableEq, Repr

/-- A timer tick (alert-engine.ts, lines 29–35): skipped entirely when a
batch is running, otherwise a batch over the enabled rules begins
(`ConfigManager.getAlertRules` filters on `enabled`, config.ts lines
166–168). -/
def AlertEngine.onTick (alerts : List AlertRule) (s : SchedState) : SchedState :=
  if s.isRunning then s
  else { isRunning := true
         queue := alerts.filter (fun r => r.enabled)
         evaluated := s.evaluated }

/-- One step of the running batch: evaluate the next queued rule, or run
the `finally` block (back to idle) when none remain.  Does nothing when no
batch is running. -/
def AlertEngine.onStep (s : SchedState) : SchedState :=
  if s.isRunning then
    match s.queue with
    | [] => { s with isRunning := false }
    | r :: rest => { s with queue := rest, evaluated := s.evaluated ++ [r.name] }
  else s

/-! ### `src/server/syslog-parser.ts` -/

/-- `String.prototype.startsWith` on character lists. -/
def startsWithList : List Char → List Char → Bool
  | _, [] => true
  | [], _ :: _ => false
  | c :: cs, p :: ps => c = p && startsWithList cs ps

/-- `s.startsWith(c)` for a single character. -/
def startsWithChar (s : List Char) (c : Char) : Bool :=
  s.head? = some c

/-- `s.endsWith(c)` for a single character. -/
def endsWithChar (s : List Char) (c : Char) : Bool :=
  s.getLast? = some c

/-- `content.split(" ")`: split on every single space character. -/
def splitSpace : List Char → List (List Char)
  | [] => [[]]
  | ' ' :: rest => [] :: splitSpace rest
  | c :: rest =>
    match splitSpace rest with
    | [] => [[c]]
    | l :: ls => (c :: l) :: ls

/-- A `Date`-valued field of a parsed record.  `Date` arithmetic is
external, so only the provenance of the value is modelled:
`parseTime` is `new Date()` taken while parsing; `fromToken tok` is
`new Date(tok)` for an RFC 5424 timestamp token (falling back to the
parse time when invalid, `parseTimestamp`, syslog-parser.ts lines
152–159); `fromLegacy ts` is the RFC 3164 timestamp string combined
with the current year (lines 119–123). -/
inductive TsVal where
  | parseTime
  | fromToken (tok : String)
  | fromLegacy (ts : String)
deriving DecidableEq, Repr

/-- The `SyslogMessage` record (syslog-parser.ts, lines 1–13).  `facility`
and `severity` are JavaScript numbers that may be `NaN` (`none`). -/
structure SyslogMessage where
  facility : Option Int
  severity : Option Int
  version : Option Nat
  timestamp : TsVal
  hostname : String
  appName : String
  procId : Option String
  msgId : Option String
  structuredData : Option (List (String × List (String × String)))
  message : String
  raw : String
deriving DecidableEq, Repr

/-- `SyslogParser.parseTimestamp` (syslog-parser.ts, lines 152–159). -/
def SyslogParser.parseTimestamp (timestamp : String) : TsVal :=
  if timestamp = "-" then TsVal.parseTime else TsVal.fromToken timestamp

/-- Backtracking core of `currentSD.match(/\[([^\s]+)([^\]]*)\]/)` at a
fixed `[`: `t` is the text after the bracket, and `k` descends from the
length of the maximal non-whitespace run.  A split at `k` succeeds when a
`]` occurs at or after position `k`; the id is the first `k` characters and
the parameter text runs to the first `]` from `k`. -/
def sdMatchDescend (t : List Char) : Nat → Option (List Char × List Char)
  | 0 => none
  | Nat.succ k =>
    if (t.drop (k+1)).contains ']' then
      some (t.take (k+1), (t.drop (k+1)).takeWhile (fun c => c ≠ ']'))
    else sdMatchDescend t k

/-- The unanchored search of `/\[([^\s]+)([^\]]*)\]/`: try each `[` from
the left, with `sdMatchDescend` handling the greedy/backtracking group
semantics at that bracket. -/
def sdMatchScan : List Char → Option (List Char × List Char)
  | [] => none
  | c :: rest =>
    if c = '[' then
      match sdMatchDescend rest ((rest.takeWhile (fun d => ¬ isSpaceJS d)).length) with
      | some r => some r
      | none => sdMatchScan rest
    else sdMatchScan rest

/-- One attempt of `/\s+([^=]+)="([^"]*)"/` at the start of `t`: returns
the key, the value, and the number of characters consumed up to the
closing quote.  The greedy groups resolve to: whitespace run `[0, w)`, key
ending at the first `=`, then `="` and a quoted value.  When the first `=`
sits immediately after the whitespace run, backtracking shifts one
whitespace character into the key (needs `w ≥ 2`). -/
def matchKVAt (t : List Char) : Option (List Char × List Char × Nat) :=
  let w := (t.takeWhile isSpaceJS).length
  if w = 0 then none
  else
    match t.findIdx? (fun c => c = '=') with
    | none => none
    | some e =>
      let key :=
        if w + 1 ≤ e then some ((t.drop w).take (e - w))
        else if 2 ≤ w ∧ e = w then some ((t.drop (w-1)).take 1)
        else none
      match key with
      | none => none
      | some k =>
        match t.drop (e+1) with
        | '"' :: afterQuote =>
          if afterQuote.contains '"' then
            let v := afterQuote.takeWhile (fun c => c ≠ '"')
            some (k, v, e + 2 + v.length + 1)
          else none
        | _ => none

/-- The `regex.exec` loop of `SyslogParser.parseSDParams`
(syslog-parser.ts, lines 201–214) over `/\s+([^=]+)="([^"]*)"/g`: scan
left to right, record each `key="value"` pair (later assignments to the
same key overwrite), resume after the closing quote. -/
def sdParamsScan : Nat → List Char → List (String × String) →
    List (String × String)
  | 0, _, acc => acc
  | Nat.succ fuel, t, acc =>
    match t with
    | [] => acc
    | _ :: rest =>
      match matchKVAt t with
      | some (k, v, consumed) =>
        sdParamsScan fuel (t.drop consumed) (upsertAssoc acc ⟨k⟩ ⟨v⟩)
      | none => sdParamsScan fuel rest acc

/-- `SyslogParser.parseSDParams` (syslog-parser.ts, lines 201–214). -/
def SyslogParser.parseSDParams (params : List Char) : List (String × String) :=
  sdParamsScan (params.length + 1) params []

/-- The `for` loop of `SyslogParser.parseStructuredData`
(syslog-parser.ts, lines 161–199), with the loop index, `currentSD`,
`inSD` and `result` as accumulators; empty tokens are skipped
(`if (!part) continue`), a token starting a group (or continuing one) is
folded into `currentSD`, and a completed group (ending in `]`) is matched
and recorded, continuing only when the next token opens another group. -/
def parseSDLoop (parts : List (List Char)) : Nat → Nat → List Char → Bool →
    List (String × List (String × String)) →
    List (String × List (String × String))
  | 0, _, _, _, result => result
  | Nat.succ fuel, i, currentSD, inSD, result =>
    match parts.get? i with
    | none => result
    | some part =>
      if part = [] then parseSDLoop parts fuel (i+1) currentSD inSD result
      else
        let st :=
          if startsWithChar part '[' ∧ ¬ inSD then (part, true)
          else if inSD then (currentSD ++ ' ' :: part, true)
          else (currentSD, inSD)
        let currentSD1 := st.1
        let inSD1 := st.2
        if inSD1 ∧ endsWithChar currentSD1 ']' then
          let result1 :=
            match sdMatchScan currentSD1 with
            | some (sdId, params) =>
              upsertAssoc result ⟨sdId⟩ (SyslogParser.parseSDParams params)
            | none => result
          match parts.get? (i+1) with
          | some next =>
            if next ≠ [] ∧ startsWithChar next '[' then
              parseSDLoop parts fuel (i+1) [] false result1
            else result1
          | none => result1
        else parseSDLoop parts fuel (i+1) currentSD1 inSD1 result

/-- `SyslogParser.parseStructuredData` (syslog-parser.ts, lines 161–199):
run the loop from `startIndex`; an empty result map is `undefined`. -/
def SyslogParser.parseStructuredData (parts : List (List Char))
    (startIndex : Nat) :
    Option (List (String × List (String × String))) :=
  let result := parseSDLoop parts (parts.length + 1) startIndex [] false []
  if result = [] then none else some result

/-- The loop of `SyslogParser.findMessageStart` (syslog-parser.ts, lines
216–228): the first index `i` whose token ends with `]` and is not
followed by a further `[`-opening token yields `i + 1`; otherwise the
message starts at `parts.length`. -/
def findMessageStartLoop (parts : List (List Char)) : Nat → Nat → Nat
  | 0, _ => parts.length
  | Nat.succ fuel, i =>
    match parts.get? i with
    | none => parts.length
    | some part =>
      if endsWithChar part ']' ∧
          (match parts.get? (i+1) with
           | none => true
           | some next => decide (next = [] ∨ ¬ startsWithChar next '[')) = true then
        i + 1
      else findMessageStartLoop parts fuel (i+1)

/-- `SyslogParser.findMessageStart` (syslog-parser.ts, lines 216–228). -/
def SyslogParser.findMessageStart (parts : List (List Char)) (sdStart : Nat) :
    Nat :=
  findMessageStartLoop parts (parts.length + 1) sdStart

/-- `SyslogParser.parseRFC5424` (syslog-parser.ts, lines 68–105): split on
single spaces, read the positional fields (`x || "-"` turns empty tokens
into `-`; `parts[i] === "-"` marks proc-id/msg-id absent), parse the
optional structured data, and rejoin the remaining tokens as the
message. -/
def SyslogParser.parseRFC5424 (raw : String) (facility severity : Option Int)
    (content : List Char) : SyslogMessage :=
  let parts := splitSpace content
  let p0 := parts.getD 0 []
  let timestamp := SyslogParser.parseTimestamp (if p0 = [] then "-" else ⟨p0⟩)
  let p1 := parts.getD 1 []
  let hostname : String := if p1 = [] then "-" else ⟨p1⟩
  let p2 := parts.getD 2 []
  let appName : String := if p2 = [] then "-" else ⟨p2⟩
  let procId : Option String :=
    match parts.get? 3 with
    | none => none
    | some s => if s = ['-'] then none else some ⟨s⟩
  let msgId : Option String :=
    match parts.get? 4 with
    | none => none
    | some s => if s = ['-'] then none else some ⟨s⟩
  let p5 := parts.getD 5 []
  let sdPresent := p5 ≠ [] ∧ p5 ≠ ['-'] ∧ startsWithChar p5 '['
  let structuredData :=
    if sdPresent then SyslogParser.parseStructuredData parts 5 else none
  let messageStart :=
    if sdPresent then SyslogParser.findMessageStart parts 5 else 6
  let message : String :=
    ⟨trimListJS (List.intercalate [' '] (parts.drop messageStart))⟩
  { facility := facility
    severity := severity
    version := some 1
    timestamp := timestamp
    hostname := hostname
    appName := appName
    procId := procId
    msgId := msgId
    structuredData := structuredData
    message := message
    raw := raw }

/-- The anchored match
`/^([A-Z][a-z]{2}\s+\d{1,2}\s+\d{2}:\d{2}:\d{2})\s+/` used for the RFC
3164 timestamp (syslog-parser.ts, lines 113–115): returns the captured
group and the full match length (including the trailing whitespace run).
`\d{1,2}` with a following `\s+` forces the day run to have exactly one
or two digits. -/
def matchTs3164 (s : List Char) : Option (List Char × Nat) :=
  match s with
  | c0 :: c1 :: c2 :: rest =>
    if ('A' ≤ c0 ∧ c0 ≤ 'Z') ∧ ('a' ≤ c1 ∧ c1 ≤ 'z') ∧ ('a' ≤ c2 ∧ c2 ≤ 'z') then
      let w1 := rest.takeWhile isSpaceJS
      let r1 := rest.drop w1.length
      let day := r1.takeWhile isDigitJS
      let r2 := r1.drop day.length
      let w2 := r2.takeWhile isSpaceJS
      let r3 := r2.drop w2.length
      if w1 ≠ [] ∧ (day.length = 1 ∨ day.length = 2) ∧ w2 ≠ [] then
        match r3 with
        | h1 :: h2 :: ':' :: m1 :: m2 :: ':' :: s1 :: s2 :: r4 =>
          if isDigitJS h1 ∧ isDigitJS h2 ∧ isDigitJS m1 ∧ isDigitJS m2 ∧
              isDigitJS s1 ∧ isDigitJS s2 then
            let w3 := r4.takeWhile isSpaceJS
            if w3 ≠ [] then
              let group := [c0, c1, c2] ++ w1 ++ day ++ w2 ++
                [h1, h2, ':', m1, m2, ':', s1, s2]
              some (group, group.length + w3.length)
            else none
          else none
        | _ => none
      else none
    else none
  | _ => none

/-- Backtracking over the app-name split for
`/^([^\s]+)\s+([^[\s]+)(?:\[(\d+)\])?:\s*(.*)/s` (syslog-parser.ts, lines
125–127): `run` is the maximal `[^[\s]` run, `r2` the text it starts;
`k` descends.  At each split the optional `[digits]` is tried greedily
before the bare `:`. -/
def hostAppDescend (run r2 : List Char) : Nat →
    Option (List Char × Option (List Char) × List Char)
  | 0 => none
  | Nat.succ k =>
    let app := run.take (k+1)
    let rest := r2.drop (k+1)
    let withBracket :=
      match rest with
      | '[' :: rest1 =>
        let ds := rest1.takeWhile isDigitJS
        if ds ≠ [] then
          match rest1.drop ds.length with
          | ']' :: ':' :: rest2 => some (app, some ds, rest2)
          | _ => none
        else none
      | _ => none
    match withBracket with
    | some res => some res
    | none =>
      match rest with
      | ':' :: rest2 => some (app, none, rest2)
      | _ => hostAppDescend run r2 k

/-- The anchored match `/^([^\s]+)\s+([^[\s]+)(?:\[(\d+)\])?:\s*(.*)/s`
(syslog-parser.ts, lines 125–127): hostname is the maximal leading
non-whitespace run, then a whitespace run, then the app-name split handled
by `hostAppDescend`; after the colon, `\s*` greedily eats whitespace and
`(.*)` (with the `s` flag) takes everything else as the message.  Returns
`(hostname, appName, procId digits, message)`. -/
def hostAppMatch (r : List Char) :
    Option (List Char × List Char × Option (List Char) × List Char) :=
  let host := r.takeWhile (fun c => ¬ isSpaceJS c)
  if host = [] then none
  else
    let r1 := r.drop host.length
    let sp := r1.takeWhile isSpaceJS
    if sp = [] then none
    else
      let r2 := r1.drop sp.length
      let run := r2.takeWhile (fun c => ¬ isSpaceJS c ∧ c ≠ '[')
      match hostAppDescend run r2 run.length with
      | none => none
      | some (app, pid, rest2) =>
        let ws := rest2.takeWhile isSpaceJS
        some (host, app, pid, rest2.drop ws.length)

/-- `SyslogParser.parseRFC3164` (syslog-parser.ts, lines 107–150). -/
def SyslogParser.parseRFC3164 (raw : String) (facility severity : Option Int)
    (content : List Char) : SyslogMessage :=
  let tsm := matchTs3164 content
  let timestamp :=
    match tsm with
    | some (g, _) => TsVal.fromLegacy ⟨g⟩
    | none => TsVal.parseTime
  let remaining :=
    match tsm with
    | some (_, len) => content.drop len
    | none => content
  match hostAppMatch remaining with
  | some (host, app, pid, msg) =>
    { facility := facility
      severity := severity
      version := none
      timestamp := timestamp
      hostname := ⟨host⟩
      appName := ⟨app⟩
      procId := pid.map (fun d => (⟨d⟩ : String))
      msgId := none
      structuredData := none
      message := ⟨msg⟩
      raw := raw }
  | none =>
    { facility := facility
      severity := severity
      version := none
      timestamp := timestamp
      hostname := "-"
      appName := "-"
      procId := none
      msgId := none
      structuredData := none
      message := ⟨remaining⟩
      raw := raw }

/-- The fallback record returned by `SyslogParser.parse` when no priority
header is found (syslog-parser.ts, lines 57–65).  Note `rawMessage` has
been reassigned to its trimmed form by line 28 before this record is
built. -/
def SyslogParser.fallback (rawMessage : String) : SyslogMessage :=
  { facility := some 16
    severity := some 6
    version := none
    timestamp := TsVal.parseTime
    hostname := "-"
    appName := "-"
    procId := none
    msgId := none
    structuredData := none
    message := rawMessage
    raw := rawMessage }

/-- `SyslogParser.parse` (syslog-parser.ts, lines 27–66).  `Math.floor` of
a JavaScript division by 8 is `Int.fdiv`, and the `%` remainder is
`Int.tmod`; both map `NaN` (`none`) through unchanged. -/
def SyslogParser.parse (rawMessage0 : String) : SyslogMessage :=
  let rawMessage := trimJS rawMessage0
  if startsWithChar rawMessage.data '<' then
    let priEnd := indexOfChar rawMessage.data '>'
    if priEnd > 0 then
      let priValue := parseIntJS ((rawMessage.data.drop 1).take (priEnd.toNat - 1))
      let facility := priValue.map (fun p => Int.fdiv p 8)
      let severity := priValue.map (fun p => Int.tmod p 8)
      let messageContent := trimListJS (rawMessage.data.drop (priEnd.toNat + 1))
      if startsWithList messageContent ['1', ' '] then
        SyslogParser.parseRFC5424 rawMessage facility severity
          (messageContent.drop 2)
      else
        SyslogParser.parseRFC3164 rawMessage facility severity messageContent
    else SyslogParser.fallback rawMessage
  else SyslogParser.fallback rawMessage

/-! ### `src/server/syslog-server.ts` — the frame decoder

The `data` socket handler appends the arriving chunk to the connection's
buffer and then runs a `while (remaining.length > 0)` loop: an
octet-counted header (`/^(\d+)\s/`) is tried first, then a newline split
(`/\r?\n/`), then a NUL split, and otherwise the loop waits for more
data.  Messages emitted through `processMessage` are collected in order;
the loop's final `remaining` becomes the new buffer. -/

/-- `remaining.match(/^(\d+)\s/)`: a maximal nonempty leading digit run
followed by one whitespace character.  Returns the digit-run length and
the declared message length (`parseInt(match[1], 10)`). -/
def octetHeader (r : List Char) : Option (Nat × Nat) :=
  let ds := r.takeWhile isDigitJS
  if ds = [] then none
  else
    match r.drop ds.length with
    | c :: _ => if isSpaceJS c then some (ds.length, digitsToNat ds) else none
    | [] => none

/-- `remaining.split(/\r?\n/)`: delimiters are `\r\n` (preferred) or a bare
`\n`; a lone `\r` is ordinary content. -/
def splitCRLF : List Char → List (List Char)
  | [] => [[]]
  | '\r' :: '\n' :: rest => [] :: splitCRLF rest
  | '\n' :: rest => [] :: splitCRLF rest
  | c :: rest =>
    match splitCRLF rest with
    | [] => [[c]]
    | l :: ls => (c :: l) :: ls

/-- `remaining.split("\0")`. -/
def splitNul : List Char → List (List Char)
  | [] => [[]]
  | '\x00' :: rest => [] :: splitNul rest
  | c :: rest =>
    match splitNul rest with
    | [] => [[c]]
    | l :: ls => (c :: l) :: ls

/-- The per-segment emission applied to complete newline- or NUL-delimited
segments: `if (seg.trim()) processMessage(seg.trim())`. -/
def emitTrimmed (segs : List (List Char)) : List (List Char) :=
  segs.filterMap (fun l =>
    let t := trimListJS l
    if t = [] then none else some t)

/-- The `while (remaining.length > 0)` loop of the `data` handler, with
explicit fuel (every serviced iteration strictly shortens the buffer, so
`length + 1` fuel always suffices).  Returns the emitted messages in
order and the final `remaining` buffer. -/
def decodeLoopF : Nat → List Char → List (List Char) × List Char
  | 0, r => ([], r)
  | Nat.succ fuel, r =>
    if r = [] then ([], r)
    else
      match octetHeader r with
      | some (nd, msgLength) =>
        let headerLen := nd + 1
        let totalLength := headerLen + msgLength
        if totalLength ≤ r.length then
          let message := (r.drop headerLen).take msgLength
          let next := decodeLoopF fuel (r.drop totalLength)
          (message :: next.1, next.2)
        else ([], r)
      | none =>
        let lines := splitCRLF r
        if 1 < lines.length then
          let rem := (lines.getLast?).getD []
          let next := decodeLoopF fuel rem
          (emitTrimmed lines.dropLast ++ next.1, next.2)
        else if r.contains '\x00' then
          let msgs := splitNul r
          let rem := (msgs.getLast?).getD []
          let next := decodeLoopF fuel rem
          (emitTrimmed msgs.dropLast ++ next.1, next.2)
        else ([], r)

/-- The decoding loop run to completion on a buffer. -/
def decodeLoop (r : List Char) : List (List Char) × List Char :=
  decodeLoopF (r.length + 1) r

/-- One `data` event on a connection whose buffer holds `buffered`:
decode `buffered ++ chunk`, returning the emitted messages and the new
buffer. -/
def dataEvent (buffered chunk : List Char) : List (List Char) × List Char :=
  decodeLoop (buffered ++ chunk)

/-! ## Helper lemmas -/

lemma getAssoc_upsertAssoc (m : List (String × Nat)) (k : String) (v : Nat) :
    getAssoc (upsertAssoc m k v) k = some v := by
  induction m with
  | nil => simp [upsertAssoc, getAssoc]
  | cons hd tl ih =>
    obtain ⟨k0, v0⟩ := hd
    by_cases h : k0 = k
    · simp [upsertAssoc, getAssoc, h]
    · simp [upsertAssoc, getAssoc, h, ih]

/-! ## Claim C5 -/

/-- C5: for every count and threshold, `ConfigManager.checkThreshold`
returns `count > threshold` for `gt`, `count ≥ threshold` for `gte`,
`count < threshold` for `lt`, `count ≤ threshold` for `lte`,
`count = threshold` for `eq`, and `false` for any unrecognized operator;
with count = 10 and threshold = 10, `gte` fires and `gt` does not. -/
theorem C5_checkThreshold_semantics :
    (∀ v t : ℚ,
      ConfigManager.checkThreshold v t "gt" = decide (v > t) ∧
      ConfigManager.checkThreshold v t "gte" = decide (v ≥ t) ∧
      ConfigManager.checkThreshold v t "lt" = decide (v < t) ∧
      ConfigManager.checkThreshold v t "lte" = decide (v ≤ t) ∧
      ConfigManager.checkThreshold v t "eq" = decide (v = t) ∧
      ∀ op : String, op ∉ (["gt", "gte", "lt", "lte", "eq"] : List String) →
        ConfigManager.checkThreshold v t op = false) ∧
    ConfigManager.checkThreshold 10 10 "gte" = true ∧
    ConfigManager.checkThreshold 10 10 "gt" = false := by
  refine ⟨fun v t => ⟨rfl, rfl, rfl, rfl, rfl, fun op hop => ?_⟩, ?_, ?_⟩
  · simp only [List.mem_cons, List.not_mem_nil, or_false, not_or] at hop
    obtain ⟨h1, h2, h3, h4, h5⟩ := hop
    unfold ConfigManager.checkThreshold
    rw [if_neg h1, if_neg h2, if_neg h3, if_neg h4, if_neg h5]
  · decide
  · decide

/-- Witness for C5 at a concrete unrecognized operator. -/
theorem C5_checkThreshold_semantics_witness :
    ConfigManager.checkThreshold 3 7 "contains" = false :=
  (C5_checkThreshold_semantics.1 3 7).2.2.2.2.2 "contains" (by decide)

/-! ## Claim C8 -/

/-- C8: for every actual count and (positive) threshold, the payload
severity computed by `WebhookNotifier.getSeverity` is `"critical"` iff
count/threshold ≥ 2, `"warning"` iff the ratio is in [1.5, 2), and
`"info"` iff the ratio is below 1.5; count = 11 with threshold = 10 gives
`"info"` and count = 11 with threshold = 5 gives `"critical"`. -/
theorem C8_severity_from_ratio :
    (∀ c t : ℚ, 0 < t →
      (WebhookNotifier.getSeverity c t = "critical" ↔ 2 ≤ c / t) ∧
      (WebhookNotifier.getSeverity c t = "warning" ↔
        (1.5 : ℚ) ≤ c / t ∧ c / t < 2) ∧
      (WebhookNotifier.getSeverity c t = "info" ↔ c / t < 1.5)) ∧
    WebhookNotifier.getSeverity 11 10 = "info" ∧
    WebhookNotifier.getSeverity 11 5 = "critical" := by
  refine ⟨fun c t _ => ?_, by norm_num [WebhookNotifier.getSeverity],
    by norm_num [WebhookNotifier.getSeverity]⟩
  simp only [WebhookNotifier.getSeverity]
  split_ifs with h1 h2
  · exact ⟨iff_of_true rfl h1,
      iff_of_false (by decide) (fun h => absurd h1 (not_le.mpr h.2)),
      iff_of_false (by decide)
        (fun hlt => absurd h1 (not_le.mpr (hlt.trans (by norm_num))))⟩
  · exact ⟨iff_of_false (by decide) h1,
      iff_of_true rfl ⟨h2, not_le.mp h1⟩,
      iff_of_false (by decide) (not_lt.mpr h2)⟩
  · exact ⟨iff_of_false (by decide) h1,
      iff_of_false (by decide) (fun h => absurd h.1 h2),
      iff_of_true rfl (not_le.mp h2)⟩

/-- Witness for C8 at the spec's two concrete scenarios. -/
theorem C8_severity_from_ratio_witness :
    WebhookNotifier.getSeverity 11 10 = "info" ∧
    2 ≤ (11 : ℚ) / 5 :=
  ⟨((C8_severity_from_ratio.1 11 10 (by norm_num)).2.2).mpr (by norm_num),
    ((C8_severity_from_ratio.1 11 5 (by norm_num)).1).mp
      C8_severity_from_ratio.2.2⟩

/-! ## Claim C6 -/

/-- C6: a failure while executing the alert count query (a thrown error
from the SQLite engine, e.g. on a malformed predicate) is caught and
`LogDatabase.runAlertQuery` returns 0 for that tick instead of
propagating; the function is total, so a malformed predicate never
crashes the scheduler. -/
theorem C6_query_failure_yields_zero :
    ∀ (exec : SqlExec) (predicate : String) (s e : Nat),
      exec ("SELECT COUNT(*) as count FROM logs WHERE timestamp >= $startTime AND timestamp <= $endTime AND (" ++
          predicate ++ ")") s e = none →
      LogDatabase.runAlertQuery exec predicate s e = 0 := by
  intro exec predicate s e h
  simp only [LogDatabase.runAlertQuery]
  rw [h]

/-- Witness for C6: an engine that always throws yields count 0. -/
theorem C6_query_failure_yields_zero_witness :
    LogDatabase.runAlertQuery (fun _ _ _ => none) "LOWER(message LIKE" 0 900000 = 0 :=
  C6_query_failure_yields_zero (fun _ _ _ => none) "LOWER(message LIKE" 0 900000 rfl

/-! ## Claim C10 -/

/-- C10: when a rule definition omits the comparison operator, the zod
schema default makes the validated rule's operator `"gt"`, every
evaluation applies the `gt` comparison (fires iff count > threshold), and
the dispatched webhook payload reports operator `"gt"`. -/
theorem C10_default_operator :
    ∀ (raw : RawAlertRule) (rule : AlertRule),
      raw.operator = none →
      alertRuleSchemaParse raw = some rule →
      rule.operator = "gt" ∧
      (∀ count : Int,
        AlertEngine.ruleFires rule count = decide ((count : ℚ) > rule.threshold)) ∧
      (∀ (c : ℚ) (ws we : Nat),
        (WebhookNotifier.buildPayload rule c ws we).operator = "gt") := by
  intro raw rule hnone hparse
  unfold alertRuleSchemaParse at hparse
  split at hparse
  · have hop : rule.operator = "gt" := by
      cases hparse
      simp [hnone]
    refine ⟨hop, fun count => ?_, fun c ws we => ?_⟩
    · unfold AlertEngine.ruleFires
      rw [hop]
      rfl
    · unfold WebhookNotifier.buildPayload
      rw [hop]
      rfl
  · exact absurd hparse (by simp)

/-- Witness for C10: a configuration rule with no operator written. -/
theorem C10_default_operator_witness :
    (WebhookNotifier.buildPayload
      { name := "errors", enabled := true, window := "15m",
        query := "LOWER(message) LIKE '%error%'", threshold := 10,
        operator := "gt", webhook := "http://example.com/hook",
        headers := [], cooldown := "5m" } 11 0 900000).operator = "gt" :=
  (C10_default_operator
    { name := "errors", enabled := some true, window := "15m",
      query := "LOWER(message) LIKE '%error%'", threshold := 10,
      operator := none, webhook := "http://example.com/hook",
      headers := [], cooldown := none }
    { name := "errors", enabled := true, window := "15m",
      query := "LOWER(message) LIKE '%error%'", threshold := 10,
      operator := "gt", webhook := "http://example.com/hook",
      headers := [], cooldown := "5m" }
    rfl (by decide)).2.2
    11 0 900000

/-! ## Claim C7 -/

lemma sched_batch_runs (q : List AlertRule) :
    ∀ ev : List String,
      AlertEngine.onStep^[q.length + 1] ⟨true, q, ev⟩ =
        ⟨false, [], ev ++ q.map (fun r => r.name)⟩ := by
  induction q with
  | nil =>
    intro ev
    simp [AlertEngine.onStep]
  | cons r rest ih =>
    intro ev
    rw [show (r :: rest).length + 1 = (rest.length + 1) + 1 by simp,
      Function.iterate_succ_apply]
    have hstep : AlertEngine.onStep ⟨true, r :: rest, ev⟩ =
        ⟨true, rest, ev ++ [r.name]⟩ := by
      simp [AlertEngine.onStep]
    rw [hstep, ih (ev ++ [r.name])]
    simp

/-- C7: at most one alert batch is in flight — a timer tick arriving while
a batch is running leaves the scheduler state unchanged (skipped, not
queued); a tick from idle starts a batch that evaluates the enabled rules
sequentially in configuration order and returns to idle after the last
rule. -/
theorem C7_single_flight :
    ∀ (alerts : List AlertRule) (s : SchedState),
      (s.isRunning = true → AlertEngine.onTick alerts s = s) ∧
      (s.isRunning = false →
        AlertEngine.onStep^[(alerts.filter (fun r => r.enabled)).length + 1]
            (AlertEngine.onTick alerts s) =
          ⟨false, [],
            s.evaluated ++ (alerts.filter (fun r => r.enabled)).map
              (fun r => r.name)⟩) := by
  intro alerts s
  constructor
  · intro h
    unfold AlertEngine.onTick
    rw [if_pos h]
  · intro h
    have htick : AlertEngine.onTick alerts s =
        ⟨true, alerts.filter (fun r => r.enabled), s.evaluated⟩ := by
      unfold AlertEngine.onTick
      rw [if_neg (by rw [h]; exact Bool.false_ne_true)]
    rw [htick, sched_batch_runs]

/-- Witness for C7: a tick during a running batch is a no-op. -/
theorem C7_single_flight_witness :
    AlertEngine.onTick [] ⟨true, [], []⟩ = ⟨true, [], []⟩ :=
  (C7_single_flight [] ⟨true, [], []⟩).1 rfl

/-! ## Claim C1 -/

/-- C1: the cooldown gate of `AlertEngine.checkRule` — while the cooldown
tracker holds a last-fire time within the rule's cooldown of `now`, the
rule is skipped entirely (no log-store query, no dispatch, state
unchanged); a failed webhook delivery leaves the tracker and alert
history unchanged; and whenever the evaluation changes the state at all,
the dispatch succeeded, a dispatch was attempted, and the tracker now
records the fire time. -/
theorem C1_cooldown_protocol :
    ∀ (exec : SqlExec) (rule : AlertRule) (st : EngineState)
      (now fireTime : Nat),
      (∀ dispatchOk : Bool,
        AlertEngine.isInCooldown rule st now = some true →
        AlertEngine.checkRule exec rule st now dispatchOk fireTime =
          some ⟨st, false, false⟩) ∧
      (∀ out : CheckOutcome,
        AlertEngine.checkRule exec rule st now false fireTime = some out →
        out.state = st) ∧
      (∀ (dispatchOk : Bool) (out : CheckOutcome),
        AlertEngine.checkRule exec rule st now dispatchOk fireTime = some out →
        out.state ≠ st →
        dispatchOk = true ∧ out.dispatched = true ∧
          getAssoc out.state.lastAlertTimes rule.name = some fireTime) := by
  intro exec rule st now fireTime
  refine ⟨fun dispatchOk hcool => ?_, fun out hout => ?_,
    fun dispatchOk out hout hne => ?_⟩
  · unfold AlertEngine.checkRule
    rw [hcool]
  · unfold AlertEngine.checkRule at hout
    dsimp only at hout
    split at hout
    · exact absurd hout (by simp)
    · cases hout
      rfl
    · split at hout
      · exact absurd hout (by simp)
      · split at hout
        · cases hout
          rfl
        · cases hout
          rfl
  · unfold AlertEngine.checkRule at hout
    dsimp only at hout
    split at hout
    · exact absurd hout (by simp)
    · cases hout
      exact absurd rfl hne
    · split at hout
      · exact absurd hout (by simp)
      · split at hout
        · split at hout
          · cases hout
            exact ⟨by assumption, rfl, getAssoc_upsertAssoc _ _ _⟩
          · cases hout
            exact absurd rfl hne
        · cases hout
          exact absurd rfl hne

/-- Witness for C1: a rule that fired 1 millisecond ago with a 5-minute
cooldown is skipped. -/
theorem C1_cooldown_protocol_witness :
    AlertEngine.checkRule (fun _ _ _ => some (some [SqlValue.num 42]))
      { name := "errors", enabled := true, window := "15m",
        query := "severity <= 3", threshold := 10, operator := "gt",
        webhook := "http://example.com/hook", headers := [],
        cooldown := "5m" }
      ⟨[("errors", 1000000)], []⟩ 1000001 true 1000002 =
      some ⟨⟨[("errors", 1000000)], []⟩, false, false⟩ :=
  (C1_cooldown_protocol (fun _ _ _ => some (some [SqlValue.num 42]))
    { name := "errors", enabled := true, window := "15m",
      query := "severity <= 3", threshold := 10, operator := "gt",
      webhook := "http://example.com/hook", headers := [],
      cooldown := "5m" }
    ⟨[("errors", 1000000)], []⟩ 1000001 1000002).1 true (by decide)

/-! ## Frame decoder lemmas -/
lemma splitCRLF_ne_nil (r : List Char) : splitCRLF r ≠ [] := by
  induction r using splitCRLF.induct with
  | case1 => simp [splitCRLF.eq_1]
  | case2 rest ih => simp [splitCRLF.eq_2]
  | case3 rest ih => simp [splitCRLF.eq_3]
  | case4 c rest h1 h2 heq ih => exact absurd heq ih
  | case5 c rest h1 h2 l ls heq ih =>
    rw [splitCRLF.eq_4 c rest h1 h2, heq]
    simp

lemma splitCRLF_cons_default (c : Char) (rest : List Char)
    (h1 : ∀ rest1, c = '\r' → rest = '\n' :: rest1 → False)
    (h2 : c = '\n' → False) {l : List Char} {ls : List (List Char)}
    (heq : splitCRLF rest = l :: ls) :
    splitCRLF (c :: rest) = (c :: l) :: ls := by
  rw [splitCRLF.eq_4 c rest h1 h2, heq]

lemma splitCRLF_singleton (r : List Char) :
    ∀ l, splitCRLF r = [l] → l = r := by
  induction r using splitCRLF.induct with
  | case1 =>
    intro l h
    rw [splitCRLF.eq_1] at h
    injection h with e1 _
    exact e1.symm
  | case2 rest ih =>
    intro l h
    rw [splitCRLF.eq_2] at h
    injection h with _ e2
    exact absurd e2 (splitCRLF_ne_nil rest)
  | case3 rest ih =>
    intro l h
    rw [splitCRLF.eq_3] at h
    injection h with _ e2
    exact absurd e2 (splitCRLF_ne_nil rest)
  | case4 c rest h1 h2 heq ih => exact absurd heq (splitCRLF_ne_nil rest)
  | case5 c rest h1 h2 l0 ls0 heq ih =>
    intro l h
    rw [splitCRLF_cons_default c rest h1 h2 heq] at h
    injection h with e1 e2
    subst e2
    rw [← e1, ih l0 heq]

lemma one_lt_splitCRLF_iff (r : List Char) :
    1 < (splitCRLF r).length ↔ '\n' ∈ r := by
  induction r using splitCRLF.induct with
  | case1 => simp [splitCRLF.eq_1]
  | case2 rest ih =>
    rw [splitCRLF.eq_2]
    refine iff_of_true ?_ (by simp)
    have := List.length_pos.mpr (splitCRLF_ne_nil rest)
    simp only [List.length_cons]
    omega
  | case3 rest ih =>
    rw [splitCRLF.eq_3]
    refine iff_of_true ?_ (by simp)
    have := List.length_pos.mpr (splitCRLF_ne_nil rest)
    simp only [List.length_cons]
    omega
  | case4 c rest h1 h2 heq ih => exact absurd heq (splitCRLF_ne_nil rest)
  | case5 c rest h1 h2 l0 ls0 heq ih =>
    rw [splitCRLF_cons_default c rest h1 h2 heq]
    rw [heq] at ih
    simp only [List.length_cons] at ih ⊢
    rw [List.mem_cons]
    constructor
    · intro h
      exact Or.inr (ih.mp h)
    · rintro (h | h)
      · exact absurd h.symm h2
      · exact ih.mpr h

lemma splitCRLF_getLast_lt (r : List Char) :
    1 < (splitCRLF r).length →
    (((splitCRLF r).getLast?).getD []).length < r.length := by
  induction r using splitCRLF.induct with
  | case1 =>
    rw [splitCRLF.eq_1]
    intro h
    simp at h
  | case2 rest ih =>
    rw [splitCRLF.eq_2]
    intro _
    rcases hS : splitCRLF rest with - | ⟨m, ms⟩
    · exact absurd hS (splitCRLF_ne_nil rest)
    · rcases ms with - | ⟨m2, ms2⟩
      · have hm : m = rest := splitCRLF_singleton rest m hS
        subst hm
        simp only [List.getLast?_cons_cons, List.getLast?_singleton,
          Option.getD_some, List.length_cons]
        omega
      · have hlt := ih (by rw [hS]; simp)
        rw [hS] at hlt
        rw [List.getLast?_cons_cons]
        simp only [List.length_cons]
        omega
  | case3 rest ih =>
    rw [splitCRLF.eq_3]
    intro _
    rcases hS : splitCRLF rest with - | ⟨m, ms⟩
    · exact absurd hS (splitCRLF_ne_nil rest)
    · rcases ms with - | ⟨m2, ms2⟩
      · have hm : m = rest := splitCRLF_singleton rest m hS
        subst hm
        simp only [List.getLast?_cons_cons, List.getLast?_singleton,
          Option.getD_some, List.length_cons]
        omega
      · have hlt := ih (by rw [hS]; simp)
        rw [hS] at hlt
        rw [List.getLast?_cons_cons]
        simp only [List.length_cons]
        omega
  | case4 c rest h1 h2 heq ih => exact absurd heq (splitCRLF_ne_nil rest)
  | case5 c rest h1 h2 l0 ls0 heq ih =>
    rw [splitCRLF_cons_default c rest h1 h2 heq]
    intro h
    simp only [List.length_cons] at h
    rcases ls0 with - | ⟨x, xs⟩
    · simp at h
    · have hlt := ih (by rw [heq]; simp)
      rw [heq, List.getLast?_cons_cons] at hlt
      rw [List.getLast?_cons_cons]
      simp only [List.length_cons]
      omega

lemma splitNul_ne_nil (r : List Char) : splitNul r ≠ [] := by
  induction r using splitNul.induct with
  | case1 => simp [splitNul.eq_1]
  | case2 rest ih => simp [splitNul.eq_2]
  | case3 c rest h2 heq ih => exact absurd heq ih
  | case4 c rest h2 l ls heq ih =>
    rw [splitNul.eq_3 c rest h2, heq]
    simp

lemma splitNul_cons_default (c : Char) (rest : List Char)
    (h2 : c = '\x00' → False) {l : List Char} {ls : List (List Char)}
    (heq : splitNul rest = l :: ls) :
    splitNul (c :: rest) = (c :: l) :: ls := by
  rw [splitNul.eq_3 c rest h2, heq]

lemma splitNul_singleton (r : List Char) :
    ∀ l, splitNul r = [l] → l = r := by
  induction r using splitNul.induct with
  | case1 =>
    intro l h
    rw [splitNul.eq_1] at h
    injection h with e1 _
    exact e1.symm
  | case2 rest ih =>
    intro l h
    rw [splitNul.eq_2] at h
    injection h with _ e2
    exact absurd e2 (splitNul_ne_nil rest)
  | case3 c rest h2 heq ih => exact absurd heq (splitNul_ne_nil rest)
  | case4 c rest h2 l0 ls0 heq ih =>
    intro l h
    rw [splitNul_cons_default c rest h2 heq] at h
    injection h with e1 e2
    subst e2
    rw [← e1, ih l0 heq]

lemma one_lt_splitNul_iff (r : List Char) :
    1 < (splitNul r).length ↔ '\x00' ∈ r := by
  induction r using splitNul.induct with
  | case1 => simp [splitNul.eq_1]
  | case2 rest ih =>
    rw [splitNul.eq_2]
    refine iff_of_true ?_ (by simp)
    have := List.length_pos.mpr (splitNul_ne_nil rest)
    simp only [List.length_cons]
    omega
  | case3 c rest h2 heq ih => exact absurd heq (splitNul_ne_nil rest)
  | case4 c rest h2 l0 ls0 heq ih =>
    rw [splitNul_cons_default c rest h2 heq]
    rw [heq] at ih
    simp only [List.length_cons] at ih ⊢
    rw [List.mem_cons]
    constructor
    · intro h
      exact Or.inr (ih.mp h)
    · rintro (h | h)
      · exact absurd h.symm h2
      · exact ih.mpr h

lemma splitNul_getLast_lt (r : List Char) :
    1 < (splitNul r).length →
    (((splitNul r).getLast?).getD []).length < r.length := by
  induction r using splitNul.induct with
  | case1 =>
    rw [splitNul.eq_1]
    intro h
    simp at h
  | case2 rest ih =>
    rw [splitNul.eq_2]
    intro _
    rcases hS : splitNul rest with - | ⟨m, ms⟩
    · exact absurd hS (splitNul_ne_nil rest)
    · rcases ms with - | ⟨m2, ms2⟩
      · have hm : m = rest := splitNul_singleton rest m hS
        subst hm
        simp only [List.getLast?_cons_cons, List.getLast?_singleton,
          Option.getD_some, List.length_cons]
        omega
      · have hlt := ih (by rw [hS]; simp)
        rw [hS] at hlt
        rw [List.getLast?_cons_cons]
        simp only [List.length_cons]
        omega
  | case3 c rest h2 heq ih => exact absurd heq (splitNul_ne_nil rest)
  | case4 c rest h2 l0 ls0 heq ih =>
    rw [splitNul_cons_default c rest h2 heq]
    intro h
    simp only [List.length_cons] at h
    rcases ls0 with - | ⟨x, xs⟩
    · simp at h
    · have hlt := ih (by rw [heq]; simp)
      rw [heq, List.getLast?_cons_cons] at hlt
      rw [List.getLast?_cons_cons]
      simp only [List.length_cons]
      omega

lemma contains_iff_mem {l : List Char} {a : Char} :
    l.contains a = true ↔ a ∈ l := List.elem_iff

lemma decodeLoopF_irrel :
    ∀ (f1 f2 : Nat) (r : List Char), r.length < f1 → r.length < f2 →
      decodeLoopF f1 r = decodeLoopF f2 r := by
  intro f1
  induction f1 using Nat.strong_induction_on with
  | _ f1 ih =>
    intro f2 r h1 h2
    match f1, f2 with
    | a + 1, b + 1 =>
      simp only [decodeLoopF]
      by_cases hr : r = []
      · simp [hr]
      · have hrlen : 0 < r.length := List.length_pos.mpr hr
        simp only [hr, if_false]
        cases hoct : octetHeader r with
        | some p =>
          obtain ⟨nd, ml⟩ := p
          simp only [hoct]
          by_cases hlen : nd + 1 + ml ≤ r.length
          · simp only [if_pos hlen]
            have hdlt : (r.drop (nd + 1 + ml)).length < r.length := by
              rw [List.length_drop]
              omega
            rw [ih a (Nat.lt_succ_self a) b (r.drop (nd + 1 + ml))
              (by omega) (by omega)]
          · simp only [if_neg hlen]
        | none =>
          simp only [hoct]
          by_cases hnl : 1 < (splitCRLF r).length
          · simp only [if_pos hnl]
            have hdlt := splitCRLF_getLast_lt r hnl
            rw [ih a (Nat.lt_succ_self a) b (((splitCRLF r).getLast?).getD [])
              (by omega) (by omega)]
          · simp only [if_neg hnl]
            by_cases hnu : r.contains '\x00' = true
            · simp only [hnu, if_true]
              have hdlt := splitNul_getLast_lt r
                ((one_lt_splitNul_iff r).mpr (contains_iff_mem.mp hnu))
              rw [ih a (Nat.lt_succ_self a) b (((splitNul r).getLast?).getD [])
                (by omega) (by omega)]
            · have hmem : ¬ ('\x00' ∈ r) := fun hm => hnu (contains_iff_mem.mpr hm)
              simp [hmem]

lemma takeWhile_all_append (p : Char → Bool) (c : Char) (l2 : List Char)
    (hc : p c = false) :
    ∀ l1 : List Char, (∀ x ∈ l1, p x = true) →
      (l1 ++ c :: l2).takeWhile p = l1 := by
  intro l1
  induction l1 with
  | nil =>
    intro _
    simp [List.takeWhile_cons, hc]
  | cons a l ih =>
    intro h1
    simp only [List.cons_append, List.takeWhile_cons,
      h1 a (List.mem_cons_self a l), if_true,
      ih (fun x hx => h1 x (List.mem_cons_of_mem a hx))]

lemma octetHeader_digits (digits rest : List Char) (hne : digits ≠ [])
    (hall : ∀ x ∈ digits, isDigitJS x = true) :
    octetHeader (digits ++ ' ' :: rest) =
      some (digits.length, digitsToNat digits) := by
  simp only [octetHeader]
  rw [takeWhile_all_append isDigitJS ' ' rest (by decide) digits hall]
  rw [if_neg hne, List.drop_left]
  simp [isSpaceJS]

lemma length_append_cons (digits rest : List Char) :
    (digits ++ ' ' :: rest).length = digits.length + 1 + rest.length := by
  simp only [List.length_append, List.length_cons]
  omega

lemma drop_header (digits rest : List Char) :
    (digits ++ ' ' :: rest).drop (digits.length + 1) = rest := by
  rw [List.append_cons]
  simp

lemma drop_total (digits rest : List Char) (n : Nat) :
    (digits ++ ' ' :: rest).drop (digits.length + 1 + n) = rest.drop n := by
  have h := @List.drop_append Char (digits ++ [' ']) rest n
  rw [List.append_cons]
  simpa [List.length_append] using h

lemma decodeLoop_octet (digits rest : List Char) (hne : digits ≠ [])
    (hall : ∀ x ∈ digits, isDigitJS x = true) :
    (digitsToNat digits ≤ rest.length →
      decodeLoop (digits ++ ' ' :: rest) =
        (rest.take (digitsToNat digits) ::
            (decodeLoop (rest.drop (digitsToNat digits))).1,
          (decodeLoop (rest.drop (digitsToNat digits))).2)) ∧
    (rest.length < digitsToNat digits →
      decodeLoop (digits ++ ' ' :: rest) = ([], digits ++ ' ' :: rest)) := by
  have hcons : digits ++ ' ' :: rest ≠ [] := by simp
  have hlen := length_append_cons digits rest
  constructor
  · intro hN
    conv_lhs => rw [decodeLoop]
    simp only [decodeLoopF]
    rw [if_neg hcons]
    simp only [octetHeader_digits digits rest hne hall]
    rw [if_pos (by omega), drop_header, drop_total]
    rw [decodeLoopF_irrel (digits ++ ' ' :: rest).length
      ((rest.drop (digitsToNat digits)).length + 1) (rest.drop (digitsToNat digits))
      (by rw [List.length_drop]; omega) (by omega)]
    rfl
  · intro hlt
    conv_lhs => rw [decodeLoop]
    simp only [decodeLoopF]
    rw [if_neg hcons]
    simp only [octetHeader_digits digits rest hne hall]
    rw [if_neg (by omega)]

lemma decodeLoop_wait (r : List Char) (hoct : octetHeader r = none)
    (hnl : ¬ '\n' ∈ r) (hnu : ¬ '\x00' ∈ r) :
    decodeLoop r = ([], r) := by
  by_cases hr : r = []
  · subst hr
    rfl
  · simp only [decodeLoop, decodeLoopF]
    rw [if_neg hr]
    simp only [hoct]
    rw [if_neg (fun h => hnl ((one_lt_splitCRLF_iff r).mp h))]
    rw [if_neg (fun hc => hnu (contains_iff_mem.mp hc))]

lemma decodeLoop_lines (r : List Char) (hoct : octetHeader r = none)
    (hnl : '\n' ∈ r) :
    decodeLoop r =
      (emitTrimmed (splitCRLF r).dropLast ++
          (decodeLoop (((splitCRLF r).getLast?).getD [])).1,
        (decodeLoop (((splitCRLF r).getLast?).getD [])).2) := by
  have hr : r ≠ [] := by
    rintro rfl
    simp at hnl
  have h1 : 1 < (splitCRLF r).length := (one_lt_splitCRLF_iff r).mpr hnl
  conv_lhs => rw [decodeLoop]
  simp only [decodeLoopF]
  rw [if_neg hr]
  simp only [hoct]
  rw [if_pos h1]
  rw [decodeLoopF_irrel r.length ((((splitCRLF r).getLast?).getD []).length + 1) _
    (splitCRLF_getLast_lt r h1) (by omega)]
  rfl


/-! ## Claim C2 -/

/-- C2: when the per-connection buffer starts with a nonempty decimal
digit run followed by a single space declaring a byte length `N`, the
decoder extracts exactly the next `N` characters as one message, consumes
the header and those characters, and continues on the remainder; with
fewer than `N` characters available it emits nothing and leaves the
buffer untouched.  `"5 hello6 world!"` delivered in two chunks split at
any position yields exactly `"hello"` then `"world!"`, and `"10 abc"`
yields no message until the remaining 7 bytes arrive. -/
theorem C2_octet_framing :
    (∀ digits rest : List Char, digits ≠ [] →
      (∀ x ∈ digits, isDigitJS x = true) →
      (digitsToNat digits ≤ rest.length →
        decodeLoop (digits ++ ' ' :: rest) =
          (rest.take (digitsToNat digits) ::
              (decodeLoop (rest.drop (digitsToNat digits))).1,
            (decodeLoop (rest.drop (digitsToNat digits))).2)) ∧
      (rest.length < digitsToNat digits →
        decodeLoop (digits ++ ' ' :: rest) = ([], digits ++ ' ' :: rest))) ∧
    (∀ k : Fin 16,
      (dataEvent [] ("5 hello6 world!".data.take k)).1 ++
          (dataEvent (dataEvent [] ("5 hello6 world!".data.take k)).2
            ("5 hello6 world!".data.drop k)).1 =
        ["hello".data, "world!".data] ∧
      (dataEvent (dataEvent [] ("5 hello6 world!".data.take k)).2
          ("5 hello6 world!".data.drop k)).2 = []) ∧
    decodeLoop "10 abc".data = ([], "10 abc".data) ∧
    dataEvent "10 abc".data "defghij".data = (["abcdefghij".data], []) := by
  refine ⟨fun digits rest hne hall => decodeLoop_octet digits rest hne hall,
    by decide, by decide, by decide⟩

/-- Witness for C2 at a concrete octet-counted buffer. -/
theorem C2_octet_framing_witness :
    decodeLoop ("3".data ++ ' ' :: "abcXYZ".data) =
      ("abcXYZ".data.take (digitsToNat "3".data) ::
          (decodeLoop ("abcXYZ".data.drop (digitsToNat "3".data))).1,
        (decodeLoop ("abcXYZ".data.drop (digitsToNat "3".data))).2) :=
  (C2_octet_framing.1 "3".data "abcXYZ".data (by decide) (by decide)).1
    (by decide)

/-! ## Claim C4 -/

/-- Counterexample for C4: the buffer `"12\nabc\n"` does not begin with a
digit run followed by a single space (the run `"12"` is followed by a
newline), and it contains `\n`, so the claim requires the decoder to emit
the complete lines `"12"` and `"abc"` and keep the empty trailing buffer;
instead the octet gate `/^(\d+)\s/` accepts the newline as `\s`, treats
the buffer as an incomplete 12-byte octet-counted frame, and emits
nothing, leaving the buffer unchanged. -/
theorem C4_counterexample :
    "12\nabc\n".data.takeWhile isDigitJS = "12".data ∧
    "12\nabc\n".data.get? 2 = some '\n' ∧
    "12\nabc\n".data.contains '\n' = true ∧
    decodeLoop "12\nabc\n".data = ([], "12\nabc\n".data) ∧
    decodeLoop "12\nabc\n".data ≠ (["12".data, "abc".data], []) := by
  decide

/-- C4 (amended): when the buffer does not begin with a digit run followed
by a *whitespace character* (the code's octet gate) but contains `\n`, the
decoder splits on all complete lines, emits each line with nonempty trim
(trimmed) in arrival order, and continues the framing loop on the trailing
segment after the final delimiter; when that trailing segment begins no
other recognizable frame, it is retained as the new buffer. -/
theorem C4_line_framing_amended :
    ∀ r : List Char, octetHeader r = none → r.contains '\n' = true →
      decodeLoop r =
        (emitTrimmed (splitCRLF r).dropLast ++
            (decodeLoop (((splitCRLF r).getLast?).getD [])).1,
          (decodeLoop (((splitCRLF r).getLast?).getD [])).2) ∧
      (octetHeader (((splitCRLF r).getLast?).getD []) = none →
        (((splitCRLF r).getLast?).getD []).contains '\n' = false →
        (((splitCRLF r).getLast?).getD []).contains '\x00' = false →
        decodeLoop r =
          (emitTrimmed (splitCRLF r).dropLast,
            ((splitCRLF r).getLast?).getD [])) := by
  intro r hoct hnl
  have hmem : '\n' ∈ r := contains_iff_mem.mp hnl
  have hmain := decodeLoop_lines r hoct hmem
  refine ⟨hmain, fun h1 h2 h3 => ?_⟩
  have hwait : decodeLoop (((splitCRLF r).getLast?).getD []) =
      ([], ((splitCRLF r).getLast?).getD []) :=
    decodeLoop_wait _ h1
      (fun hm => by rw [← contains_iff_mem] at hm; rw [hm] at h2; cases h2)
      (fun hm => by rw [← contains_iff_mem] at hm; rw [hm] at h3; cases h3)
  rw [hmain, hwait]
  simp

/-- Witness for the amended C4 on a concrete line-delimited buffer. -/
theorem C4_line_framing_amended_witness :
    decodeLoop "abc\nxy".data =
      (emitTrimmed (splitCRLF "abc\nxy".data).dropLast,
        ((splitCRLF "abc\nxy".data).getLast?).getD []) :=
  (C4_line_framing_amended "abc\nxy".data (by decide) (by decide)).2
    (by decide) (by decide) (by decide)

/-! ## Syslog parser lemmas -/

lemma parseRFC5424_pri (raw : String) (f sev : Option Int) (content : List Char) :
    (SyslogParser.parseRFC5424 raw f sev content).facility = f ∧
    (SyslogParser.parseRFC5424 raw f sev content).severity = sev :=
  ⟨rfl, rfl⟩

lemma parseRFC3164_pri (raw : String) (f sev : Option Int) (content : List Char) :
    (SyslogParser.parseRFC3164 raw f sev content).facility = f ∧
    (SyslogParser.parseRFC3164 raw f sev content).severity = sev := by
  constructor <;> (simp only [SyslogParser.parseRFC3164]; split <;> rfl)

/-! ## Claim C9 -/

/-- C9: whenever the trimmed message starts with `<`, a `>` occurs after
it, and the priority digits parse to an integer `P`, the resulting record
has facility `P div 8` (floor) and severity `P mod 8` (truncated
remainder) — out-of-range values pass through uninterpreted; in
particular priority `<131>` decodes to facility 16 and severity 3. -/
theorem C9_priority_decoding :
    (∀ (s : String) (p : Int),
      startsWithChar (trimJS s).data '<' = true →
      0 < indexOfChar (trimJS s).data '>' →
      parseIntJS (((trimJS s).data.drop 1).take
          ((indexOfChar (trimJS s).data '>').toNat - 1)) = some p →
      (SyslogParser.parse s).facility = some (Int.fdiv p 8) ∧
      (SyslogParser.parse s).severity = some (Int.tmod p 8)) ∧
    (SyslogParser.parse "<131>1 2025-01-01T00:00:00Z host app - - boom").facility =
      some 16 ∧
    (SyslogParser.parse "<131>1 2025-01-01T00:00:00Z host app - - boom").severity =
      some 3 := by
  refine ⟨fun s p h1 h2 h3 => ?_, by decide, by decide⟩
  simp only [SyslogParser.parse]
  rw [if_pos h1, if_pos h2, h3]
  by_cases h4 : startsWithList
      (trimListJS ((trimJS s).data.drop ((indexOfChar (trimJS s).data '>').toNat + 1)))
      ['1', ' '] = true
  · rw [if_pos h4]
    exact ⟨by rw [(parseRFC5424_pri _ _ _ _).1]; rfl,
      by rw [(parseRFC5424_pri _ _ _ _).2]; rfl⟩
  · rw [if_neg h4]
    exact ⟨by rw [(parseRFC3164_pri _ _ _ _).1]; rfl,
      by rw [(parseRFC3164_pri _ _ _ _).2]; rfl⟩

/-- Witness for C9 on a legacy-format message. -/
theorem C9_priority_decoding_witness :
    (SyslogParser.parse "<131>x").facility = some (Int.fdiv 131 8) ∧
    (SyslogParser.parse "<131>x").severity = some (Int.tmod 131 8) :=
  C9_priority_decoding.1 "<131>x" 131 (by decide) (by decide) (by decide)

/-! ## Claim C3 -/

/-- Counterexample for C3.  The claim says the fallback record is produced
whenever the priority value cannot be parsed before a closing `>`, with
message and raw equal to the original text verbatim.  On `"<>"` the
priority digits are unparsable (`parseIntJS` of the empty slice is `NaN`)
yet the parser does not return the fallback: it proceeds with `NaN`
facility/severity.  On `" x "` the fallback is produced but its message
and raw are the *trimmed* text `"x"`, not the original `" x "`
verbatim. -/
theorem C3_counterexample :
    startsWithChar (trimJS "<>").data '<' = true ∧
    indexOfChar (trimJS "<>").data '>' = 1 ∧
    parseIntJS (((trimJS "<>").data.drop 1).take 0) = none ∧
    SyslogParser.parse "<>" ≠ SyslogParser.fallback "<>" ∧
    (SyslogParser.parse "<>").facility = none ∧
    (SyslogParser.parse " x ").message = "x" ∧
    (SyslogParser.parse " x ").raw = "x" ∧
    ("x" : String) ≠ " x " := by decide

/-- C3 (amended): `SyslogParser.parse` never raises (it is a total
function); it returns the fallback record — facility 16, severity 6,
timestamp = parse time, hostname `"-"`, app name `"-"`, message and raw
both equal to the *trimmed* input — exactly when the trimmed input does
not start with `<` or contains no `>` after it; when a `>` is present but
the priority digits are unparsable, the parser instead proceeds with
`NaN` facility and severity. -/
theorem C3_fallback_semantics :
    (∀ s : String,
      startsWithChar (trimJS s).data '<' = false ∨
        indexOfChar (trimJS s).data '>' ≤ 0 →
      SyslogParser.parse s = SyslogParser.fallback (trimJS s)) ∧
    (∀ s : String,
      startsWithChar (trimJS s).data '<' = true →
      0 < indexOfChar (trimJS s).data '>' →
      parseIntJS (((trimJS s).data.drop 1).take
          ((indexOfChar (trimJS s).data '>').toNat - 1)) = none →
      (SyslogParser.parse s).facility = none ∧
      (SyslogParser.parse s).severity = none) := by
  constructor
  · rintro s (h | h)
    · simp only [SyslogParser.parse]
      rw [if_neg (by simp [h])]
    · by_cases hstart : startsWithChar (trimJS s).data '<' = true
      · simp only [SyslogParser.parse]
        rw [if_pos hstart, if_neg (not_lt.mpr h)]
      · simp only [SyslogParser.parse]
        rw [if_neg hstart]
  · intro s h1 h2 h3
    simp only [SyslogParser.parse]
    rw [if_pos h1, if_pos h2, h3]
    by_cases h4 : startsWithList
        (trimListJS ((trimJS s).data.drop ((indexOfChar (trimJS s).data '>').toNat + 1)))
        ['1', ' '] = true
    · rw [if_pos h4]
      exact ⟨by rw [(parseRFC5424_pri _ _ _ _).1]; rfl,
        by rw [(parseRFC5424_pri _ _ _ _).2]; rfl⟩
    · rw [if_neg h4]
      exact ⟨by rw [(parseRFC3164_pri _ _ _ _).1]; rfl,
        by rw [(parseRFC3164_pri _ _ _ _).2]; rfl⟩

/-- Witness for the amended C3 on an unstructured message. -/
theorem C3_fallback_semantics_witness :
    SyslogParser.parse "plain message" =
      SyslogParser.fallback (trimJS "plain message") :=
  C3_fallback_semantics.1 "plain message" (Or.inl (by decide))
